import Mathlib

/-!
Verification of the on-demand image transformation cache
(`src/transformer.service.ts`).

The development shallowly embeds the `Transformer` class.  The external
collaborators (the Keyv result cache, the two `CachedImage` source fetchers,
the `sharp` image engine, the `smartcrop-sharp` engine and the `ObjectHash`
service) are injected dependencies of the TypeScript class; they are modelled
as an explicit environment record of functions, and the `sharp` pipeline is
modelled as the list of operations the orchestrator pushes onto it, so that
every decision the orchestrator makes (which branch, which arguments, in which
order, what is cached and when) is captured exactly.
-/

/-- Image formats (`format` union type in `interfaces.ts`, not under `src/`);
modelled as strings ("jpeg", "png", ...). -/
abbrev Fmt := String

/-- Errors thrown by the asynchronous collaborators (rejected promises). -/
abbrev Err := String

deriving instance DecidableEq for Except

/-- Opaque image byte buffers.  `raw s` tags a concrete buffer. -/
inductive Bytes where
  | raw (tag : String)
deriving DecidableEq, Repr

/-- The `topCrop` region returned by the smartcrop engine:
`\x7b x, y, width, height \x7d`. -/
structure Region where
  x : ℚ
  y : ℚ
  width : ℚ
  height : ℚ
deriving DecidableEq, Repr

/-- The options object accepted by `sharp`'s `resize`; the orchestrator uses
`position` (crop branch) and `fit`/`withoutEnlargement` (default branch), and
passes no options object at all in the smartcrop branch (all fields default). -/
structure ResizeOptions where
  fit : Option String := none
  position : Option String := none
  withoutEnlargement : Bool := false
deriving DecidableEq, Repr

/-- One operation pushed onto the `sharp` pipeline by the orchestrator.
`extract` records the region fields in the order
`width, height, left, top` of the object literal at line 97. -/
inductive SharpOp where
  | rotate
  | blur (sigma : ℚ)
  | extract (width height left top : ℚ)
  | resize (width : ℚ) (height : Option ℚ) (opts : ResizeOptions)
  | composite (input : Bytes) (top left : ℚ)
deriving DecidableEq, Repr

/-- Modelled from the spec: `ResizeDto` (file `resize.dto.ts` is not under
`src/`).  Fields per spec section 3: width/height, format, quality,
progressive, blur + blurSigma, crop, smartcrop, gravity, overlay +
overlayImage.  `width` is modelled as present (every claim under study
supplies it); `height` keeps its optionality, which the source's
`getCropDimensions` depends on. -/
structure ResizeDto where
  width : ℚ
  height : Option ℚ
  format : Option Fmt
  quality : Option ℕ
  progressive : Option Bool
  blur : Bool
  blurSigma : ℚ
  crop : Bool
  smartcrop : Bool
  gravity : Option String
  overlay : Bool
  overlayImage : Option String
deriving DecidableEq, Repr

/-- `Result` from `interfaces.ts`: `\x7b format, image: bytes | null \x7d`. -/
structure Result where
  format : Option Fmt
  image : Option Bytes
deriving DecidableEq, Repr

/-- Observable state threaded through a call: the Keyv result cache (a set
overwrites by consing, lookups find the newest entry), the number of
invocations of the primary source fetcher (`cachedOriginalImage.fetch`), and
the number of times the image engine was invoked on the original image
(`sharp(originalImage)` constructions). -/
structure TState where
  cache : List (String × Result)
  originalFetchCount : ℕ
  sharpCalls : ℕ
deriving DecidableEq, Repr

/-- The injected collaborators and external engines:
`fetchOriginal id adapterName` is `cachedOriginalImage.fetch(id, adapter)`;
`fetchOverlay` is `cachedOverlayImage.fetch(options.overlayImage, adapter)`;
`metadataFormat` is `(await transformer.metadata()).format` on the source
bytes; `smartcropCrop img w h` is `(await smartcrop.crop(img, \x7bwidth,
height\x7d)).topCrop`; `overlayProcess` is the fixed chain
`sharp(overlayImage).resize(200, 200, contain/transparent).flatten(accent
background).toBuffer()` applied to the (possibly null) fetched overlay;
`encode img ops fmt progressive quality` is
`transformer.toFormat(fmt, \x7bprogressive, quality\x7d).toBuffer()` for the
pipeline `ops` over source `img`.  `cropMaxSize` is the configuration
constant (`DEFAULT_CROP_MAX_SIZE = 2000`). -/
structure Env where
  cropMaxSize : ℚ
  fetchOriginal : String → String → Option Bytes
  fetchOverlay : Option String → String → Option Bytes
  metadataFormat : Bytes → Except Err Fmt
  smartcropCrop : Bytes → ℚ → ℚ → Except Err Region
  overlayProcess : Option Bytes → Except Err Bytes
  encode : Bytes → List SharpOp → Option Fmt → Option Bool → Option ℕ → Except Err Bytes

/-- `DEFAULT_CROP_MAX_SIZE` (line 12). -/
def DEFAULT_CROP_MAX_SIZE : ℚ := 2000

/-- JavaScript `Math.round`: round half toward positive infinity. -/
def jsRound (q : ℚ) : ℤ := ⌊q + 1 / 2⌋

/-- `Transformer.getCropDimensions` (lines 26-40).  `height = height || width`
treats an absent height — and, faithfully to JavaScript truthiness, a zero
height — as equal to `width`.  In the `width > height` branch only the second
component is rounded (line 36); in the final branch both components go through
`Math.round` (line 39). -/
def getCropDimensions (maxSize width : ℚ) (height : Option ℚ) : ℚ × ℚ :=
  let h : ℚ := match height with
    | none => width
    | some h0 => if h0 = 0 then width else h0
  if width ≤ maxSize ∧ h ≤ maxSize then
    (width, h)
  else
    let aspectRatio := width / h
    if h < width then
      (maxSize, (jsRound (maxSize / aspectRatio) : ℚ))
    else
      ((jsRound (maxSize * aspectRatio) : ℚ), (jsRound maxSize : ℚ))

/-- `Transformer.buildCacheKey` (lines 42-45):
`transform:$\x7bid\x7d:$\x7badapterName\x7d:$\x7bhash\x7d` where `hash` is
`this.objectHasher.hash(options)`; the hasher is an injected dependency and is
passed explicitly. -/
def buildCacheKey (hasher : ResizeDto → String) (id : String)
    (options : ResizeDto) (adapterName : String) : String :=
  "transform:" ++ id ++ ":" ++ adapterName ++ ":" ++ hasher options

/-- Modelled from the spec: the `ObjectHash` collaborator
(`object-hash.service.ts` is not under `src/`).  Spec section 4.1: a
deterministic digest of a canonical serialization of the options record,
sensitive to every field.  A plain injective field-by-field serialization
realizes that contract. -/
def specHash (o : ResizeDto) : String :=
  String.intercalate "|"
    [toString o.width,
     (match o.height with | none => "_" | some q => toString q),
     (match o.format with | none => "_" | some s => "f" ++ s),
     (match o.quality with | none => "_" | some n => toString n),
     (match o.progressive with | none => "_" | some b => toString b),
     toString o.blur,
     toString o.blurSigma,
     toString o.crop,
     toString o.smartcrop,
     (match o.gravity with | none => "_" | some s => "g" ++ s),
     toString o.overlay,
     (match o.overlayImage with | none => "_" | some s => "o" ++ s)]

/-- Format resolution (lines 84-86): `if (!options.format) options.format =
(await transformer.metadata()).format`.  The in-place mutation of the caller's
record is modelled by returning the updated record; a rejected `metadata()`
promise aborts the call before the assignment. -/
def resolveFormatStep (env : Env) (img : Bytes) (o : ResizeDto) :
    Except Err ResizeDto :=
  match o.format with
  | some _ => .ok o
  | none =>
    match env.metadataFormat img with
    | .error e => .error e
    | .ok f => .ok { o with format := some f }

/-- The mutually exclusive geometric branch (lines 88-113): `smartcrop` first,
else `crop`, else the default fit-inside resize.  The smartcrop branch
extracts the `topCrop` region and then resizes to `(cropWidth, cropWidth)`
(line 98) — the target width is used for both dimensions, with no options
object.  The crop branch resizes to the crop target with `position:
options.gravity`.  The default branch resizes to the requested width/height
with `fit: 'inside', withoutEnlargement: true`. -/
def geometrySteps (env : Env) (img : Bytes) (o : ResizeDto)
    (ops : List SharpOp) : Except Err (List SharpOp) :=
  if o.smartcrop then
    let dims := getCropDimensions env.cropMaxSize o.width o.height
    match env.smartcropCrop img dims.1 dims.2 with
    | .error e => .error e
    | .ok crop =>
      .ok (ops ++ [SharpOp.extract crop.width crop.height crop.x crop.y,
                   SharpOp.resize dims.1 (some dims.1) {}])
  else if o.crop then
    let dims := getCropDimensions env.cropMaxSize o.width o.height
    .ok (ops ++ [SharpOp.resize dims.1 (some dims.2)
                  { position := o.gravity }])
  else
    .ok (ops ++ [SharpOp.resize o.width o.height
                  { fit := some "inside", withoutEnlargement := true }])

/-- The overlay stage (lines 116-125).  When `options.overlay` is set, the
overlay is fetched and the fetched value — `null` included — is fed to the
overlay sharp chain (`overlayProcess`).  If that chain rejects, the error
propagates.  If it yields a buffer, the composite is applied: in the source
the `if (overlayImage)` statement at line 122 has no braces, so it guards only
the log call at line 123, and `transformer.composite(...)` at line 124 runs
unconditionally. -/
def overlaySteps (env : Env) (o : ResizeDto) (adapterName : String)
    (ops : List SharpOp) : Except Err (List SharpOp) :=
  if o.overlay then
    match env.overlayProcess (env.fetchOverlay o.overlayImage adapterName) with
    | .error e => .error e
    | .ok overlayImage => .ok (ops ++ [SharpOp.composite overlayImage 35 35])
  else
    .ok ops

/-- The outcome of one `transform` call: the settled promise (`Result` or a
propagated error), the final contents of the caller's options record (the
source mutates it in place), and the final observable state. -/
structure TransformOutcome where
  result : Except Err Result
  options : ResizeDto
  state : TState
deriving Repr

/-- `Transformer.transform` (lines 47-141).  Sequential steps: build the cache
key from the as-passed options; on a cache hit return the stored result
immediately; on a miss fetch the source (counted), and if no bytes come back
return `\x7bformat: options.format, image: null\x7d` without caching;
otherwise invoke the engine (`sharp(originalImage).rotate()`, counted), push
an optional blur, resolve the format, run the geometric branch, run the
overlay stage, encode, and only then store the result under the key built at
the start. -/
def transform (env : Env) (hasher : ResizeDto → String) (id : String)
    (options : ResizeDto) (adapterName : String) (st : TState) :
    TransformOutcome :=
  let cacheKey := buildCacheKey hasher id options adapterName
  match List.lookup cacheKey st.cache with
  | some cachedImage => ⟨.ok cachedImage, options, st⟩
  | none =>
    let st1 : TState :=
      { st with originalFetchCount := st.originalFetchCount + 1 }
    match env.fetchOriginal id adapterName with
    | none => ⟨.ok { format := options.format, image := none }, options, st1⟩
    | some originalImage =>
      let st2 : TState := { st1 with sharpCalls := st1.sharpCalls + 1 }
      let baseOps : List SharpOp :=
        if options.blur then [SharpOp.rotate, SharpOp.blur options.blurSigma]
        else [SharpOp.rotate]
      match resolveFormatStep env originalImage options with
      | .error e => ⟨.error e, options, st2⟩
      | .ok options2 =>
        match geometrySteps env originalImage options2 baseOps with
        | .error e => ⟨.error e, options2, st2⟩
        | .ok ops2 =>
          match overlaySteps env options2 adapterName ops2 with
          | .error e => ⟨.error e, options2, st2⟩
          | .ok ops3 =>
            match env.encode originalImage ops3 options2.format
                options2.progressive options2.quality with
            | .error e => ⟨.error e, options2, st2⟩
            | .ok image =>
              let result : Result :=
                { format := options2.format, image := some image }
              ⟨.ok result, options2,
               { st2 with cache := (cacheKey, result) :: st2.cache }⟩

/-- Modelled from the spec: the glossary's "fit-inside resize" semantics of
the external pixel engine ("preserving aspect ratio, bounded by target box,
never upscaling beyond source size"), over exact rationals (the engine's
integer rounding is below the spec's level of detail).  The common scale
factor is capped at 1 (never enlarge) and by each requested bound. -/
def fitInsideDims (srcW srcH reqW reqH : ℚ) : ℚ × ℚ :=
  let s := min 1 (min (reqW / srcW) (reqH / srcH))
  (srcW * s, srcH * s)

/-- Concrete source bytes used by the closed test scenarios. -/
def bytes0 : Bytes := .raw "original"

/-- The empty starting state: empty result cache, no fetches, no engine use. -/
def st0 : TState := ⟨[], 0, 0⟩

/-- A concrete well-behaved environment for the closed test scenarios: the
primary fetcher knows the id "img", the overlay fetcher always misses, the
native format is "jpeg", the smartcrop engine always reports the region
(x 1, y 2, width 30, height 40), the overlay sharp chain succeeds even on a
null fetch, and the encoder succeeds, producing a buffer tagged with the
number of pipeline operations (so outputs of pipelines of different lengths
are distinct buffers). -/
def envOk : Env :=
  { cropMaxSize := DEFAULT_CROP_MAX_SIZE
    fetchOriginal := fun id _ => if id = "img" then some bytes0 else none
    fetchOverlay := fun _ _ => none
    metadataFormat := fun _ => .ok "jpeg"
    smartcropCrop := fun _ _ _ => .ok ⟨1, 2, 30, 40⟩
    overlayProcess := fun ob =>
      match ob with
      | none => .ok (.raw "processed-null-overlay")
      | some b => .ok b
    encode := fun _ ops _ _ _ => .ok (.raw (toString ops.length)) }

/-- A concrete options record: plain 100x50 fit-inside resize to jpeg. -/
def baseDto : ResizeDto :=
  { width := 100
    height := some 50
    format := some "jpeg"
    quality := none
    progressive := none
    blur := false
    blurSigma := 0
    crop := false
    smartcrop := false
    gravity := none
    overlay := false
    overlayImage := none }

/-- `baseDto` with the overlay option requested. -/
def overlayDto : ResizeDto := { baseDto with overlay := true, overlayImage := some "ov" }

/-- `overlayDto` with the overlay option switched off: the non-overlay
pipeline for otherwise-identical options. -/
def plainDto : ResizeDto := { overlayDto with overlay := false }

/-- `baseDto` with no requested format (to be resolved from the source). -/
def noFmtDto : ResizeDto := { baseDto with format := none }

/-- `envOk`, but the overlay sharp chain rejects when fed a null fetch result
(the behavior of `sharp` on invalid input). -/
def envNullThrows : Env :=
  { envOk with overlayProcess := fun ob =>
      match ob with
      | none => .error "sharp: null overlay input"
      | some b => .ok b }

/-- `envOk`, but the metadata read rejects (corrupt source bytes). -/
def envMetaFail : Env :=
  { envOk with metadataFormat := fun _ => .error "metadata failed" }

/-- `envOk`, but encoding rejects (unsupported target format). -/
def envEncodeFail : Env :=
  { envOk with encode := fun _ _ _ _ _ => .error "encode failed" }

/-- `baseDto` with both crop flags requested at once. -/
def smartcropDto : ResizeDto := { baseDto with smartcrop := true, crop := true }

/-! ### General lemmas about the embedded code -/

/-- A cache hit returns the stored result with nothing else observable:
options and state are untouched. -/
theorem transform_hit (env : Env) (hasher : ResizeDto → String) (id : String)
    (o : ResizeDto) (a : String) (st : TState) (r : Result)
    (h : List.lookup (buildCacheKey hasher id o a) st.cache = some r) :
    transform env hasher id o a st = ⟨.ok r, o, st⟩ := by
  simp only [transform, h]

/-- A cache miss followed by a fetch miss returns the null-image result,
bumping only the fetch counter. -/
theorem transform_fetch_miss (env : Env) (hasher : ResizeDto → String) (id : String)
    (o : ResizeDto) (a : String) (st : TState)
    (h : List.lookup (buildCacheKey hasher id o a) st.cache = none)
    (hf : env.fetchOriginal id a = none) :
    transform env hasher id o a st =
      ⟨.ok { format := o.format, image := none }, o,
       { st with originalFetchCount := st.originalFetchCount + 1 }⟩ := by
  simp only [transform, h, hf]

theorem resolveFormatStep_some (env : Env) (img : Bytes) (o : ResizeDto) (f0 : Fmt)
    (h : o.format = some f0) : resolveFormatStep env img o = .ok o := by
  simp only [resolveFormatStep, h]

theorem resolveFormatStep_none_ok (env : Env) (img : Bytes) (o : ResizeDto) (f : Fmt)
    (h : o.format = none) (hm : env.metadataFormat img = .ok f) :
    resolveFormatStep env img o = .ok { o with format := some f } := by
  simp only [resolveFormatStep, h, hm]

theorem resolveFormatStep_none_err (env : Env) (img : Bytes) (o : ResizeDto) (e : Err)
    (h : o.format = none) (hm : env.metadataFormat img = .error e) :
    resolveFormatStep env img o = .error e := by
  simp only [resolveFormatStep, h, hm]

/-- Complete characterization of the final contents of the caller's options
record: the only mutation `transform` ever performs is writing the native
format into `format`, and it happens exactly on the path
cache miss → fetch success → `format` absent → metadata success. -/
theorem transform_options_eq (env : Env) (hasher : ResizeDto → String) (id : String)
    (o : ResizeDto) (a : String) (st : TState) :
    (transform env hasher id o a st).options =
      match List.lookup (buildCacheKey hasher id o a) st.cache,
            env.fetchOriginal id a, o.format with
      | none, some img, none =>
          match env.metadataFormat img with
          | .ok f => { o with format := some f }
          | .error _ => o
      | _, _, _ => o := by
  cases hlk : List.lookup (buildCacheKey hasher id o a) st.cache with
  | some r => simp only [transform, hlk]
  | none =>
    cases hf : env.fetchOriginal id a with
    | none => simp only [transform, hlk, hf]
    | some img =>
      cases hfmt : o.format with
      | some f0 =>
        have hr := resolveFormatStep_some env img o f0 hfmt
        cases hg : geometrySteps env img o
            (if o.blur = true then [SharpOp.rotate, SharpOp.blur o.blurSigma]
             else [SharpOp.rotate]) with
        | error e => simp only [transform, hlk, hf, hr, hg]
        | ok ops2 =>
          cases hov : overlaySteps env o a ops2 with
          | error e => simp only [transform, hlk, hf, hr, hg, hov]
          | ok ops3 =>
            cases henc : env.encode img ops3 o.format o.progressive o.quality with
            | error e => simp only [transform, hlk, hf, hr, hg, hov, henc]
            | ok image => simp only [transform, hlk, hf, hr, hg, hov, henc]
      | none =>
        cases hm : env.metadataFormat img with
        | error e =>
          have hr := resolveFormatStep_none_err env img o e hfmt hm
          simp only [transform, hlk, hf, hr, hm]
        | ok f =>
          have hr := resolveFormatStep_none_ok env img o f hfmt hm
          cases hg : geometrySteps env img { o with format := some f }
              (if o.blur = true then [SharpOp.rotate, SharpOp.blur o.blurSigma]
               else [SharpOp.rotate]) with
          | error e => simp only [transform, hlk, hf, hr, hg, hm]
          | ok ops2 =>
            cases hov : overlaySteps env { o with format := some f } a ops2 with
            | error e => simp only [transform, hlk, hf, hr, hg, hov, hm]
            | ok ops3 =>
              cases henc : env.encode img ops3 (some f) o.progressive o.quality with
              | error e => simp only [transform, hlk, hf, hr, hg, hov, henc, hm]
              | ok image => simp only [transform, hlk, hf, hr, hg, hov, henc, hm]

/-- On the success path, the final state is exactly the input state with the
freshly produced result consed onto the cache under the key built from the
as-passed options, one fetch and one engine invocation. -/
theorem transform_success_state (env : Env) (hasher : ResizeDto → String) (id : String)
    (o : ResizeDto) (a : String) (st : TState) (r : Result) (img : Bytes)
    (hlk : List.lookup (buildCacheKey hasher id o a) st.cache = none)
    (hf : env.fetchOriginal id a = some img)
    (h : (transform env hasher id o a st).result = .ok r) :
    (transform env hasher id o a st).state =
      { cache := (buildCacheKey hasher id o a, r) :: st.cache,
        originalFetchCount := st.originalFetchCount + 1,
        sharpCalls := st.sharpCalls + 1 } := by
  cases hr : resolveFormatStep env img o with
  | error e2 =>
    exfalso
    simp only [transform, hlk, hf, hr] at h
    exact Except.noConfusion h
  | ok o2 =>
    cases hg : geometrySteps env img o2
        (if o.blur = true then [SharpOp.rotate, SharpOp.blur o.blurSigma]
         else [SharpOp.rotate]) with
    | error e2 =>
      exfalso
      simp only [transform, hlk, hf, hr, hg] at h
      exact Except.noConfusion h
    | ok ops2 =>
      cases hov : overlaySteps env o2 a ops2 with
      | error e2 =>
        exfalso
        simp only [transform, hlk, hf, hr, hg, hov] at h
        exact Except.noConfusion h
      | ok ops3 =>
        cases henc : env.encode img ops3 o2.format o2.progressive o2.quality with
        | error e2 =>
          exfalso
          simp only [transform, hlk, hf, hr, hg, hov, henc] at h
          exact Except.noConfusion h
        | ok image =>
          simp only [transform, hlk, hf, hr, hg, hov, henc] at h ⊢
          cases h
          rfl

/-- A second call with the same value-identical inputs hits the entry cached
by a successful first call. -/
theorem transform_second_call (env : Env) (hasher : ResizeDto → String) (id : String)
    (o : ResizeDto) (a : String) (st : TState) (img : Bytes) (r : Result)
    (hlk : List.lookup (buildCacheKey hasher id o a) st.cache = none)
    (hf : env.fetchOriginal id a = some img)
    (h : (transform env hasher id o a st).result = .ok r) :
    (transform env hasher id o a (transform env hasher id o a st).state).result = .ok r ∧
    (transform env hasher id o a (transform env hasher id o a st).state).state =
      (transform env hasher id o a st).state ∧
    (transform env hasher id o a st).state.originalFetchCount =
      st.originalFetchCount + 1 ∧
    (transform env hasher id o a
        (transform env hasher id o a st).state).state.originalFetchCount =
      st.originalFetchCount + 1 := by
  have hstate := transform_success_state env hasher id o a st r img hlk hf h
  have hlk2 : List.lookup (buildCacheKey hasher id o a)
      (transform env hasher id o a st).state.cache = some r := by
    rw [hstate]
    simp [List.lookup]
  have hsecond := transform_hit env hasher id o a _ r hlk2
  rw [hsecond, hstate]
  simp

/-- Keys with the same id and adapter but different option hashes differ. -/
theorem buildCacheKey_ne_of_hash_ne (hasher : ResizeDto → String) (id a : String)
    (o o2 : ResizeDto) (hhash : hasher o ≠ hasher o2) :
    buildCacheKey hasher id o a ≠ buildCacheKey hasher id o2 a := by
  intro heq
  apply hhash
  unfold buildCacheKey at heq
  have hd := congrArg String.data heq
  simp only [String.data_append, List.append_assoc] at hd
  have h1 := List.append_cancel_left hd
  have h2 := List.append_cancel_left h1
  have h3 := List.append_cancel_left h2
  have h4 := List.append_cancel_left h3
  have h5 := List.append_cancel_left h4
  exact String.ext h5

/-- `Math.round` of an integer is that integer. -/
theorem jsRound_int (m : ℤ) : jsRound ((m : ℚ)) = m := by
  unfold jsRound
  rw [Int.floor_int_add]
  norm_num

/-- The default geometric branch pushes exactly the fit-inside,
without-enlargement resize. -/
theorem default_geometry (env : Env) (img : Bytes) (o : ResizeDto)
    (ops : List SharpOp)
    (hsc : o.smartcrop = false) (hc : o.crop = false) :
    geometrySteps env img o ops =
      .ok (ops ++ [SharpOp.resize o.width o.height
        { fit := some "inside", withoutEnlargement := true }]) := by
  simp only [geometrySteps, hsc, hc, if_false, Bool.false_eq_true]

/-- The fit-inside output dimensions respect both requested bounds, never
exceed the source, and preserve the source aspect ratio. -/
theorem fitInsideDims_bounds (srcW srcH reqW reqH : ℚ)
    (hW : 0 < srcW) (hH : 0 < srcH) :
    (fitInsideDims srcW srcH reqW reqH).1 ≤ reqW ∧
    (fitInsideDims srcW srcH reqW reqH).2 ≤ reqH ∧
    (fitInsideDims srcW srcH reqW reqH).1 ≤ srcW ∧
    (fitInsideDims srcW srcH reqW reqH).2 ≤ srcH ∧
    (fitInsideDims srcW srcH reqW reqH).1 * srcH =
      (fitInsideDims srcW srcH reqW reqH).2 * srcW := by
  simp only [fitInsideDims]
  set s := min 1 (min (reqW / srcW) (reqH / srcH)) with hs
  have hs1 : s ≤ 1 := min_le_left _ _
  have hsW : s ≤ reqW / srcW := le_trans (min_le_right _ _) (min_le_left _ _)
  have hsH : s ≤ reqH / srcH := le_trans (min_le_right _ _) (min_le_right _ _)
  refine ⟨?_, ?_, ?_, ?_, by ring⟩
  · have h1 : s * srcW ≤ reqW := (le_div_iff₀ hW).mp hsW
    linarith
  · have h1 : s * srcH ≤ reqH := (le_div_iff₀ hH).mp hsH
    linarith
  · have := mul_le_mul_of_nonneg_left hs1 hW.le
    simpa using this
  · have := mul_le_mul_of_nonneg_left hs1 hH.le
    simpa using this

/-! ### Claim theorems -/

/-- C1: the claim says that when the overlay option is set and the overlay
fetcher returns null, compositing is skipped silently and the result equals
the non-overlay pipeline.  The code does neither: the braceless
`if (overlayImage)` guards only the log call, so when the overlay sharp chain
tolerates the null fetch the composite is still applied and the result
differs from the non-overlay pipeline for otherwise-identical options; and
when the overlay sharp chain rejects the null input, the error surfaces to
the caller. -/
theorem overlay_fetch_null_not_silently_skipped :
    envOk.fetchOverlay overlayDto.overlayImage "A" = none ∧
    (transform envOk specHash "img" overlayDto "A" st0).result =
      .ok { format := some "jpeg", image := some (Bytes.raw "3") } ∧
    (transform envOk specHash "img" plainDto "A" st0).result =
      .ok { format := some "jpeg", image := some (Bytes.raw "2") } ∧
    (transform envOk specHash "img" overlayDto "A" st0).result ≠
      (transform envOk specHash "img" plainDto "A" st0).result ∧
    envNullThrows.fetchOverlay overlayDto.overlayImage "A" = none ∧
    (transform envNullThrows specHash "img" overlayDto "A" st0).result =
      .error "sharp: null overlay input" := by
  decide

/-- C2, counterexample: a call with `format` absent (which resolves to the
source's native "jpeg") and a call with `format` explicitly "jpeg" have
structurally equal options after format resolution, yet their cache keys
differ, because the key is built from the as-passed record before
resolution. -/
theorem resolved_format_equal_options_different_keys_cex :
    noFmtDto.format = none ∧
    (transform envOk specHash "img" noFmtDto "A" st0).options = baseDto ∧
    baseDto.format = some "jpeg" ∧
    buildCacheKey specHash "img" noFmtDto "A" ≠
      buildCacheKey specHash "img" baseDto "A" := by
  decide

/-- C2, amended: the cache key is computed from the options record as passed,
before format resolution; a call whose absent format resolves to `f` uses a
key different from the key of a call with format preset to `f` whenever the
hasher distinguishes the two records, even though the two records are
structurally equal after resolution. -/
theorem cache_key_uses_unresolved_format (env : Env) (hasher : ResizeDto → String)
    (id a : String) (o : ResizeDto) (st : TState) (img : Bytes) (f : Fmt)
    (hlk : List.lookup (buildCacheKey hasher id o a) st.cache = none)
    (hf : env.fetchOriginal id a = some img)
    (hfmt : o.format = none)
    (hmeta : env.metadataFormat img = .ok f)
    (hhash : hasher o ≠ hasher { o with format := some f }) :
    (transform env hasher id o a st).options = { o with format := some f } ∧
    buildCacheKey hasher id o a ≠
      buildCacheKey hasher id { o with format := some f } a := by
  constructor
  · simp only [transform_options_eq, hlk, hf, hfmt, hmeta]
  · exact buildCacheKey_ne_of_hash_ne hasher id a o _ hhash

theorem cache_key_uses_unresolved_format_w :
    (transform envOk specHash "img" noFmtDto "A" st0).options =
      { noFmtDto with format := some "jpeg" } ∧
    buildCacheKey specHash "img" noFmtDto "A" ≠
      buildCacheKey specHash "img" { noFmtDto with format := some "jpeg" } "A" :=
  cache_key_uses_unresolved_format envOk specHash "img" "A" noFmtDto st0 bytes0 "jpeg"
    (by decide) (by decide) (by decide) (by decide) (by decide)

/-- C3: when the cache misses and the primary fetch yields no bytes,
`transform` returns `\x7bformat: options.format, image: null\x7d` and the
final state shows no engine invocation and no cache write — it is the input
state with only the fetch counter bumped. -/
theorem fetch_miss_returns_null_result_without_work
    (env : Env) (hasher : ResizeDto → String) (id : String) (o : ResizeDto)
    (a : String) (st : TState)
    (hlk : List.lookup (buildCacheKey hasher id o a) st.cache = none)
    (hf : env.fetchOriginal id a = none) :
    transform env hasher id o a st =
      ⟨.ok { format := o.format, image := none }, o,
       { st with originalFetchCount := st.originalFetchCount + 1 }⟩ :=
  transform_fetch_miss env hasher id o a st hlk hf

theorem fetch_miss_returns_null_result_without_work_w :
    transform envOk specHash "missing" baseDto "A" st0 =
      ⟨.ok { format := baseDto.format, image := none }, baseDto,
       { st0 with originalFetchCount := st0.originalFetchCount + 1 }⟩ :=
  fetch_miss_returns_null_result_without_work envOk specHash "missing" baseDto "A" st0
    (by decide) (by decide)

/-- C4: a cache hit returns the stored result with options and state
untouched (no fetch, no processing, no write); consequently, after a first
call that misses, fetches successfully and completes, a second call with the
same id, options and adapter returns the identical result from cache, leaves
the state unchanged, and the primary fetcher is invoked exactly once across
the two calls. -/
theorem cache_hit_short_circuit_and_idempotence :
    (∀ (env : Env) (hasher : ResizeDto → String) (id : String) (o : ResizeDto)
        (a : String) (st : TState) (r : Result),
        List.lookup (buildCacheKey hasher id o a) st.cache = some r →
        transform env hasher id o a st = ⟨.ok r, o, st⟩) ∧
    (∀ (env : Env) (hasher : ResizeDto → String) (id : String) (o : ResizeDto)
        (a : String) (st : TState) (img : Bytes) (r : Result),
        List.lookup (buildCacheKey hasher id o a) st.cache = none →
        env.fetchOriginal id a = some img →
        (transform env hasher id o a st).result = .ok r →
        (transform env hasher id o a
            (transform env hasher id o a st).state).result = .ok r ∧
        (transform env hasher id o a
            (transform env hasher id o a st).state).state =
          (transform env hasher id o a st).state ∧
        (transform env hasher id o a st).state.originalFetchCount =
          st.originalFetchCount + 1 ∧
        (transform env hasher id o a
            (transform env hasher id o a st).state).state.originalFetchCount =
          st.originalFetchCount + 1) :=
  ⟨fun env hasher id o a st r h => transform_hit env hasher id o a st r h,
   fun env hasher id o a st img r hlk hf h =>
     transform_second_call env hasher id o a st img r hlk hf h⟩

theorem cache_hit_short_circuit_and_idempotence_w :
    (transform envOk specHash "img" baseDto "A"
        (transform envOk specHash "img" baseDto "A" st0).state).result =
      .ok { format := some "jpeg", image := some (Bytes.raw "2") } ∧
    (transform envOk specHash "img" baseDto "A"
        (transform envOk specHash "img" baseDto "A" st0).state).state =
      (transform envOk specHash "img" baseDto "A" st0).state ∧
    (transform envOk specHash "img" baseDto "A" st0).state.originalFetchCount =
      st0.originalFetchCount + 1 ∧
    (transform envOk specHash "img" baseDto "A"
        (transform envOk specHash "img" baseDto "A"
          st0).state).state.originalFetchCount =
      st0.originalFetchCount + 1 :=
  cache_hit_short_circuit_and_idempotence.2 envOk specHash "img" baseDto "A" st0
    bytes0 { format := some "jpeg", image := some (Bytes.raw "2") }
    (by decide) (by decide) (by decide)

/-- C5: `getCropDimensions` treats an omitted height as equal to the width,
returns `(width, height)` unchanged when both are within the bound, clamps
the long edge to `maxSize` and rounds the other edge via the aspect ratio
otherwise, and satisfies the four concrete evaluations of the spec. -/
theorem getCropDimensions_spec :
    (∀ maxSize width : ℚ,
        getCropDimensions maxSize width none =
          getCropDimensions maxSize width (some width)) ∧
    (∀ maxSize width height : ℚ, 0 < height → width ≤ maxSize → height ≤ maxSize →
        getCropDimensions maxSize width (some height) = (width, height)) ∧
    (∀ (maxSize : ℤ) (width height : ℚ), 0 < height →
        ¬(width ≤ (maxSize : ℚ) ∧ height ≤ (maxSize : ℚ)) → height < width →
        getCropDimensions (maxSize : ℚ) width (some height) =
          ((maxSize : ℚ), (jsRound ((maxSize : ℚ) / (width / height)) : ℚ))) ∧
    (∀ (maxSize : ℤ) (width height : ℚ), 0 < height →
        ¬(width ≤ (maxSize : ℚ) ∧ height ≤ (maxSize : ℚ)) → ¬(height < width) →
        getCropDimensions (maxSize : ℚ) width (some height) =
          ((jsRound ((maxSize : ℚ) * (width / height)) : ℚ), (maxSize : ℚ))) ∧
    (getCropDimensions 2000 500 (some 500) = (500, 500) ∧
     getCropDimensions 2000 4000 (some 2000) = (2000, 1000) ∧
     getCropDimensions 2000 1000 (some 4000) = (500, 2000) ∧
     getCropDimensions 1000 1000 none = getCropDimensions 1000 1000 (some 1000)) := by
  refine ⟨?_, ?_, ?_, ?_, ?_, ?_, ?_, ?_⟩
  · intro m w
    simp only [getCropDimensions, ite_self]
  · intro m w h hh hw hhm
    simp only [getCropDimensions, if_neg hh.ne']
    rw [if_pos ⟨hw, hhm⟩]
  · intro m w h hh hcond hlt
    simp only [getCropDimensions, if_neg hh.ne']
    rw [if_neg hcond, if_pos hlt]
  · intro m w h hh hcond hlt
    simp only [getCropDimensions, if_neg hh.ne']
    rw [if_neg hcond, if_neg hlt, jsRound_int]
  · decide
  · norm_num [getCropDimensions, jsRound, Int.floor_eq_iff]
  · norm_num [getCropDimensions, jsRound, Int.floor_eq_iff]
  · decide

theorem getCropDimensions_spec_w :
    getCropDimensions ((2000 : ℤ) : ℚ) 4000 (some 2000) =
      (((2000 : ℤ) : ℚ), (jsRound (((2000 : ℤ) : ℚ) / (4000 / 2000)) : ℚ)) :=
  getCropDimensions_spec.2.2.1 2000 4000 2000 (by norm_num) (by norm_num)
    (by norm_num)

/-- C6: whenever `smartcrop` is set — regardless of `crop` — the geometric
stage takes the smartcrop branch and not the crop branch: the crop target is
computed by `getCropDimensions` from the configured max size and the
requested width/height, the engine's `topCrop` region is extracted, and the
extraction is resized to the square `(cropWidth, cropWidth)`, the target
width used for both dimensions. -/
theorem smartcrop_branch_precedence (env : Env) (img : Bytes) (o : ResizeDto)
    (ops : List SharpOp) (region : Region)
    (hsc : o.smartcrop = true)
    (hcrop : env.smartcropCrop img
        (getCropDimensions env.cropMaxSize o.width o.height).1
        (getCropDimensions env.cropMaxSize o.width o.height).2 = .ok region) :
    geometrySteps env img o ops =
      .ok (ops ++ [SharpOp.extract region.width region.height region.x region.y,
        SharpOp.resize (getCropDimensions env.cropMaxSize o.width o.height).1
          (some (getCropDimensions env.cropMaxSize o.width o.height).1) {}]) := by
  simp only [geometrySteps, hsc, if_true, hcrop]

theorem smartcrop_branch_precedence_w :
    geometrySteps envOk bytes0 smartcropDto [SharpOp.rotate] =
      .ok ([SharpOp.rotate] ++ [SharpOp.extract 30 40 1 2,
        SharpOp.resize
          (getCropDimensions envOk.cropMaxSize smartcropDto.width
            smartcropDto.height).1
          (some (getCropDimensions envOk.cropMaxSize smartcropDto.width
            smartcropDto.height).1) {}]) :=
  smartcrop_branch_precedence envOk bytes0 smartcropDto [SharpOp.rotate]
    ⟨1, 2, 30, 40⟩ (by decide) (by decide)

/-- C7: if any stage after a successful fetch fails (metadata read, smartcrop
analysis, overlay processing, or encoding rejects), `transform` propagates
the error and the result cache is unchanged: the write happens only after
successful encoding. -/
theorem no_cache_write_on_hard_failure (env : Env) (hasher : ResizeDto → String)
    (id : String) (o : ResizeDto) (a : String) (st : TState) (e : Err)
    (h : (transform env hasher id o a st).result = .error e) :
    (transform env hasher id o a st).state.cache = st.cache := by
  cases hlk : List.lookup (buildCacheKey hasher id o a) st.cache with
  | some r => simp only [transform, hlk]
  | none =>
    cases hf : env.fetchOriginal id a with
    | none => simp only [transform, hlk, hf]
    | some img =>
      cases hr : resolveFormatStep env img o with
      | error e2 => simp only [transform, hlk, hf, hr]
      | ok o2 =>
        cases hg : geometrySteps env img o2
            (if o.blur = true then [SharpOp.rotate, SharpOp.blur o.blurSigma]
             else [SharpOp.rotate]) with
        | error e2 => simp only [transform, hlk, hf, hr, hg]
        | ok ops2 =>
          cases hov : overlaySteps env o2 a ops2 with
          | error e2 => simp only [transform, hlk, hf, hr, hg, hov]
          | ok ops3 =>
            cases henc : env.encode img ops3 o2.format o2.progressive o2.quality with
            | error e2 => simp only [transform, hlk, hf, hr, hg, hov, henc]
            | ok image =>
              exfalso
              simp only [transform, hlk, hf, hr, hg, hov, henc] at h
              exact Except.noConfusion h

theorem no_cache_write_on_hard_failure_w :
    (transform envEncodeFail specHash "img" baseDto "A" st0).state.cache =
      st0.cache :=
  no_cache_write_on_hard_failure envEncodeFail specHash "img" baseDto "A" st0
    "encode failed" (by decide)

/-- C8, counterexample: the options format is absent and the source fetch
succeeds, yet the options record is not mutated, because the metadata read
rejects before the assignment; so the mutation is not characterized by
"format absent and fetch succeeds" alone. -/
theorem no_mutation_on_metadata_failure_cex :
    envMetaFail.fetchOriginal "img" "A" = some bytes0 ∧
    noFmtDto.format = none ∧
    (transform envMetaFail specHash "img" noFmtDto "A" st0).options = noFmtDto ∧
    (transform envMetaFail specHash "img" noFmtDto "A" st0).result =
      .error "metadata failed" := by
  decide

/-- C8, amended: `transform` mutates the caller's options record, after the
cache key has been computed from the unmutated record, exactly when the cache
lookup misses, the source fetch succeeds, `format` is absent, and the
native-format metadata read succeeds; the mutation overwrites `format` with
the native format and no other field is ever modified. -/
theorem options_mutation_characterization (env : Env) (hasher : ResizeDto → String)
    (id : String) (o : ResizeDto) (a : String) (st : TState) :
    (transform env hasher id o a st).options =
      match List.lookup (buildCacheKey hasher id o a) st.cache,
            env.fetchOriginal id a, o.format with
      | none, some img, none =>
          match env.metadataFormat img with
          | .ok f => { o with format := some f }
          | .error _ => o
      | _, _, _ => o :=
  transform_options_eq env hasher id o a st

/-- C9: with neither crop flag set the geometric stage is exactly the resize
to the requested width/height with `fit: inside, withoutEnlargement: true`;
under the spec's fit-inside semantics the output respects both requested
bounds, never exceeds the source dimensions, and preserves the source aspect
ratio. -/
theorem default_resize_fit_inside_never_enlarge :
    (∀ (env : Env) (img : Bytes) (o : ResizeDto) (ops : List SharpOp),
        o.smartcrop = false → o.crop = false →
        geometrySteps env img o ops =
          .ok (ops ++ [SharpOp.resize o.width o.height
            { fit := some "inside", withoutEnlargement := true }])) ∧
    (∀ srcW srcH reqW reqH : ℚ, 0 < srcW → 0 < srcH →
        (fitInsideDims srcW srcH reqW reqH).1 ≤ reqW ∧
        (fitInsideDims srcW srcH reqW reqH).2 ≤ reqH ∧
        (fitInsideDims srcW srcH reqW reqH).1 ≤ srcW ∧
        (fitInsideDims srcW srcH reqW reqH).2 ≤ srcH ∧
        (fitInsideDims srcW srcH reqW reqH).1 * srcH =
          (fitInsideDims srcW srcH reqW reqH).2 * srcW) :=
  ⟨fun env img o ops hsc hc => default_geometry env img o ops hsc hc,
   fun srcW srcH reqW reqH hW hH => fitInsideDims_bounds srcW srcH reqW reqH hW hH⟩

theorem default_resize_fit_inside_never_enlarge_w :
    geometrySteps envOk bytes0 baseDto [SharpOp.rotate] =
      .ok ([SharpOp.rotate] ++ [SharpOp.resize baseDto.width baseDto.height
        { fit := some "inside", withoutEnlargement := true }]) ∧
    ((fitInsideDims 4 2 8 8).1 ≤ 8 ∧
     (fitInsideDims 4 2 8 8).2 ≤ 8 ∧
     (fitInsideDims 4 2 8 8).1 ≤ 4 ∧
     (fitInsideDims 4 2 8 8).2 ≤ 2 ∧
     (fitInsideDims 4 2 8 8).1 * 2 = (fitInsideDims 4 2 8 8).2 * 4) :=
  ⟨default_resize_fit_inside_never_enlarge.1 envOk bytes0 baseDto [SharpOp.rotate]
     (by decide) (by decide),
   default_resize_fit_inside_never_enlarge.2 4 2 8 8 (by norm_num) (by norm_num)⟩

/-- C10: `buildCacheKey` is not injective in the (id, adapterName) pair: the
colon-joined key makes the distinct pairs ("a:b", "c") and ("a", "b:c")
collide for any hasher and any options, so a cached result stored for one
source would be served for the other. -/
theorem cache_key_not_injective_in_id_adapter :
    (("a:b", "c") ≠ (("a" : String), ("b:c" : String))) ∧
    ∀ (hasher : ResizeDto → String) (o : ResizeDto),
      buildCacheKey hasher "a:b" o "c" = buildCacheKey hasher "a" o "b:c" := by
  refine ⟨by decide, fun hasher o => ?_⟩
  unfold buildCacheKey
  have h : ("transform:" ++ "a:b" ++ ":" ++ "c" ++ ":" : String) =
      "transform:" ++ "a" ++ ":" ++ "b:c" ++ ":" := by decide
  calc "transform:" ++ "a:b" ++ ":" ++ "c" ++ ":" ++ hasher o
      = ("transform:" ++ "a:b" ++ ":" ++ "c" ++ ":") ++ hasher o := by
        simp [String.append_assoc]
    _ = ("transform:" ++ "a" ++ ":" ++ "b:c" ++ ":") ++ hasher o := by rw [h]
    _ = "transform:" ++ "a" ++ ":" ++ "b:c" ++ ":" ++ hasher o := by
        simp [String.append_assoc]
